import Mathlib

/-!
Verification development for the libtracy in-process tracing agent.

The definitions below are a shallow embedding of the Rust sources
(`src/lib.rs`, `src/tcp_handler.rs`): bytes are `Nat` values below 256,
byte strings are `List Nat`, the `HashMap<String, Arc<AtomicBool>>`
registry is an association list `List (List Nat × Bool)`, and fallible
or panicking control flow is made explicit with `Except`/`Option`.
Machine-integer casts (`as u16`, `as u32`) are modelled with explicit
`% 256` byte extraction, matching `to_be_bytes`/`from_be_bytes`.
-/

set_option maxRecDepth 100000

namespace Libtracy

/-! ## Constants (from `lib.rs` and `tcp_handler.rs`) -/

def MAX_TRACEPOINT_NAME_LEN : Nat := 32
def MAX_SUBMIT_LEN : Nat := 2048
def QUEUE_TOTAL_SIZE : Nat := 4096
def TIMESTAMP_LEN : Nat := 8
def HEADER_LEN : Nat := 12

/-- The magic number bytes 'RuSt' (`MAGIC_NUMB` in `tcp_handler.rs`). -/
def MAGIC_NUMB : List Nat := [0x52, 0x75, 0x53, 0x74]

/-! ## Big-endian byte codecs (`to_be_bytes` / `from_be_bytes`) -/

/-- Embedding of `u16::to_be_bytes`, of a value already reduced modulo 2^16 (byte extraction
also performs the `as u16` wrap for larger inputs). -/
def to_be16 (n : Nat) : List Nat := [n / 256 % 256, n % 256]

/-- Embedding of `u32::to_be_bytes`, including the `as u32` wrap for larger inputs. -/
def to_be32 (n : Nat) : List Nat :=
  [n / 16777216 % 256, n / 65536 % 256, n / 256 % 256, n % 256]

/-- Embedding of `u64::to_be_bytes`. -/
def to_be64 (n : Nat) : List Nat :=
  [n / 72057594037927936 % 256, n / 281474976710656 % 256,
   n / 1099511627776 % 256, n / 4294967296 % 256,
   n / 16777216 % 256, n / 65536 % 256, n / 256 % 256, n % 256]

/-- Embedding of `u16::from_be_bytes [a, b]`. -/
def from_be16 (a b : Nat) : Nat := a * 256 + b

/-- Embedding of `u32::from_be_bytes [a, b, c, d]`. -/
def from_be32 (a b c d : Nat) : Nat := ((a * 256 + b) * 256 + c) * 256 + d

/-! ## Commands (`enum Command` in `tcp_handler.rs`) -/

inductive Command where
  | tracepointListRequest
  | tracepointListReply
  | tracepointEnableRequest
  | tracepointDisableRequest
  | tracePush
  | invalid
deriving DecidableEq

/-- The `#[repr(u16)]` discriminant of each command. -/
def Command.code : Command → Nat
  | .tracepointListRequest => 1
  | .tracepointListReply => 2
  | .tracepointEnableRequest => 3
  | .tracepointDisableRequest => 4
  | .tracePush => 5
  | .invalid => 42

/-- Embedding of `cmd_number_to_enum` from `tcp_handler.rs`. -/
def cmd_number_to_enum (cmd : Nat) : Command :=
  if cmd = 1 then .tracepointListRequest
  else if cmd = 3 then .tracepointEnableRequest
  else if cmd = 4 then .tracepointDisableRequest
  else if cmd = 2 then .tracepointListReply
  else if cmd = 5 then .tracePush
  else .invalid

/-! ## Header parsing (`tcp_handler.rs`) -/

/-- Embedding of `check_magic_number` from `tcp_handler.rs`. -/
def check_magic_number (number : List Nat) : Bool :=
  number.getD 0 0 = 0x52 && number.getD 1 0 = 0x75 &&
  number.getD 2 0 = 0x53 && number.getD 3 0 = 0x74

/-- Embedding of `check_flags` from `tcp_handler.rs`: reject when the flags are non-zero. -/
def check_flags (flags : Nat) : Except Unit Unit :=
  if flags ≠ 0 then .error () else .ok ()

/-- Embedding of `check_cmd_validity` from `tcp_handler.rs`. -/
def check_cmd_validity (cmd : Command) (len : Nat) : Except Unit Unit :=
  match cmd with
  | .tracepointListRequest => if len ≠ 0 then .error () else .ok ()
  | .tracepointEnableRequest => if len = 0 then .error () else .ok ()
  | .tracepointDisableRequest => if len = 0 then .error () else .ok ()
  | _ => .error ()

/-- Embedding of `check_parse_header` from `tcp_handler.rs`, on the 12 header bytes.
Note: the source computes `check_cmd_validity(&cmd, len)` but DISCARDS the
result (it only logs on error and does not propagate it), so only a magic
mismatch or non-zero flags produce `Err`.  This is mirrored faithfully. -/
def check_parse_header (h : List Nat) : Except Unit (Command × Nat) :=
  let magic_no := [h.getD 0 0, h.getD 1 0, h.getD 2 0, h.getD 3 0]
  if ¬ check_magic_number magic_no then .error ()
  else
    let flags := from_be16 (h.getD 4 0) (h.getD 5 0)
    let cmdn := from_be16 (h.getD 6 0) (h.getD 7 0)
    let len := from_be32 (h.getD 8 0) (h.getD 9 0) (h.getD 10 0) (h.getD 11 0)
    let cmd := cmd_number_to_enum cmdn
    -- the source calls check_cmd_validity here and ignores its result
    match check_flags flags with
    | .error _ => .error ()
    | .ok _ => .ok (cmd, len)

/-! ## Trace events (`BufferElement` in `lib.rs`) -/

structure BufferElement where
  tracepoint : List Nat
  timestamp : Nat
  data : List Nat
deriving DecidableEq

/-- Embedding of `BufferElement::len` from `lib.rs`. -/
def BufferElement.len (e : BufferElement) : Nat :=
  e.tracepoint.length + TIMESTAMP_LEN + e.data.length

/-- Embedding of `encode_append_trace_data` from `tcp_handler.rs`: append the wire
encoding of one event (u16 name length, name bytes, u64 timestamp,
u16 data length, data bytes) to the send queue. -/
def encode_append_trace_data (que : List Nat) (e : BufferElement) : List Nat :=
  que ++ to_be16 e.tracepoint.length ++ e.tracepoint ++
    to_be64 e.timestamp ++ to_be16 e.data.length ++ e.data

/-- Embedding of `push_front_header` from `tcp_handler.rs`: prepend magic, zero flags,
command code and the u32 body length to the queued body bytes. -/
def push_front_header (que : List Nat) (cmd : Command) : List Nat :=
  MAGIC_NUMB ++ to_be16 0 ++ to_be16 cmd.code ++ to_be32 que.length ++ que

/-! ## The flush loop (`send_trace_data` in `tcp_handler.rs`)

The Rust `while let Some(front) = ctx.buffer.get(0)` loop is not
structurally recursive (the `else` branch does not pop the buffer), so it
is embedded with explicit fuel; `none` means the fuel ran out, i.e. the
source loop would still be running.  The result is the list of emitted
`TracePush` frames, in emission order. -/

def send_trace_loop : Nat → List BufferElement → List Nat → Bool →
    Option (List (List Nat))
  | 0, _, _, _ => none
  | _ + 1, [], que, last_was_complete =>
    if last_was_complete then some []
    else some [push_front_header que Command.tracePush]
  | fuel + 1, front :: rest, que, _ =>
    if front.len + que.length + HEADER_LEN < QUEUE_TOTAL_SIZE then
      send_trace_loop fuel rest (encode_append_trace_data que front) false
    else
      (send_trace_loop fuel (front :: rest) [] true).map
        (fun fs => push_front_header que Command.tracePush :: fs)

/-! ## Engine context (`TracerContext` in `lib.rs`)

Fields not referenced by any claim (poll handles, sockets, the app config
and the announcement sequence number) are omitted.  The TCP stream is
modelled as `Option Unit` and the two `Option<Timeout>` handles as
booleans (armed / not armed). -/

structure TracerContext where
  buffer : List BufferElement
  buffer_occupancy : Nat
  connection : Option Unit
  client_connected : Bool
  queue_timeout : Bool
  udp_timeout : Bool
  tracepoints : List (List Nat × Bool)
deriving DecidableEq

/-- Embedding of `TracerContext::append` from `lib.rs`. -/
def TracerContext.append (ctx : TracerContext) (e : BufferElement) :
    TracerContext :=
  { ctx with
    buffer_occupancy := ctx.buffer_occupancy + e.len,
    buffer := ctx.buffer ++ [e] }

/-- Embedding of `check_start_queue_timer` (arming is idempotent in the source). -/
def check_start_queue_timer (ctx : TracerContext) : TracerContext :=
  { ctx with queue_timeout := true }

/-- Embedding of `check_stop_queue_timer`. -/
def check_stop_queue_timer (ctx : TracerContext) : TracerContext :=
  { ctx with queue_timeout := false }

/-- Embedding of `check_start_udp_timer` (arming is idempotent in the source). -/
def check_start_udp_timer (ctx : TracerContext) : TracerContext :=
  { ctx with udp_timeout := true }

/-- Embedding of `check_stop_udp_timer`. -/
def check_stop_udp_timer (ctx : TracerContext) : TracerContext :=
  { ctx with udp_timeout := false }

/-- Embedding of `TracerContext::close_and_clean_connection` from `lib.rs`: clear the
`client_connected` flag, drop the connection, stop the flush timer, force
every tracepoint flag to false and (unconditionally) start the announce
timer. -/
def close_and_clean_connection (ctx : TracerContext) : TracerContext :=
  { ctx with
    client_connected := false,
    connection := none,
    queue_timeout := false,
    tracepoints := ctx.tracepoints.map (fun p => (p.1, false)),
    udp_timeout := true }

/-- Embedding of `establish_connection` from `tcp_handler.rs` (successful accept). -/
def establish_connection (ctx : TracerContext) : TracerContext :=
  { ctx with connection := some (), client_connected := true }

/-- Embedding of `insert_tracepoint` from `lib.rs`; a freshly registered tracepoint's
shared flag is false.  The newest entry shadows older ones, matching
`HashMap::insert`. -/
def insert_tracepoint (ctx : TracerContext) (name : List Nat) : TracerContext :=
  { ctx with tracepoints := (name, false) :: ctx.tracepoints }

/-- Embedding of `send_trace_data` from `tcp_handler.rs`, at context level.
`send_slices` does `ctx.connection.as_mut().unwrap().write_all(..)`, so if
any frame is emitted while `connection` is `None`, the `unwrap` panics:
this (and fuel exhaustion, i.e. the source looping forever) is the `none`
result.  I/O errors on an existing connection are not modelled (writes
succeed), under which the loop always drains the buffer completely while
leaving `buffer_occupancy` untouched, exactly as the source does. -/
def send_trace_data (ctx : TracerContext) : Option TracerContext :=
  match send_trace_loop (2 * ctx.buffer.length + 1) ctx.buffer [] true with
  | none => none
  | some frames =>
    match ctx.connection with
    | some _ => some { ctx with buffer := [] }
    | none => if frames.isEmpty then some { ctx with buffer := [] } else none

/-- Embedding of `channel_data_handler` from `lib.rs`: append unconditionally, then
either flush immediately (occupancy above `QUEUE_TOTAL_SIZE`, flush timer
cancelled) or arm the flush timer. -/
def channel_data_handler (ctx : TracerContext) (data : BufferElement) :
    Option TracerContext :=
  let c := ctx.append data
  if QUEUE_TOTAL_SIZE < c.buffer_occupancy then
    send_trace_data (check_stop_queue_timer c)
  else
    some (check_start_queue_timer c)

/-! ## Engine event machine (`tracer_thread_main` / `event_handler` /
`timer_handler` in `lib.rs`)

One step per engine-loop dispatch; guards reflect when the source can
actually take the transition (a close is only triggered by errors on an
existing connection, a timer only fires while armed).  `none` means the
transition is impossible or the handler does not return (panic). -/

inductive EngineEvent where
  | accept
  | close
  | udpFire
  | queueFire
  | newTracepoint (name : List Nat)
  | payload (e : BufferElement)

def engine_step (ctx : TracerContext) : EngineEvent → Option TracerContext
  | .accept =>
    -- event_handler CON_NEW: only acts when no connection exists
    if ctx.connection.isNone then
      some (check_stop_udp_timer (establish_connection ctx))
    else some ctx
  | .close =>
    match ctx.connection with
    | some _ => some (close_and_clean_connection ctx)
    | none => none
  | .udpFire =>
    -- timer_handler UDP_TIMEOUT_IDENT: clear handle, announce, re-arm
    if ctx.udp_timeout then
      some (check_start_udp_timer { ctx with udp_timeout := false })
    else none
  | .queueFire =>
    -- timer_handler QUEUE_TIMEOUT_IDENT: clear handle, then flush
    if ctx.queue_timeout then
      send_trace_data { ctx with queue_timeout := false }
    else none
  | .newTracepoint n => some (insert_tracepoint ctx n)
  | .payload e => channel_data_handler ctx e

/-- The context built in `tracer_thread_main`: empty buffer, no
connection, flush timer off, announce timer armed iff announcement is
configured. -/
def init_context (announce : Bool) : TracerContext :=
  { buffer := [],
    buffer_occupancy := 0,
    connection := none,
    client_connected := false,
    queue_timeout := false,
    udp_timeout := announce,
    tracepoints := [] }

/-- Quiescent engine states reachable from startup. -/
inductive Reaches (announce : Bool) : TracerContext → Prop where
  | init : Reaches announce (init_context announce)
  | step : ∀ s ev s', Reaches announce s → engine_step s ev = some s' →
      Reaches announce s'

/-! ## Registry operations (`lib.rs`) -/

/-- Exact-key lookup in the registry (HashMap `get`). -/
def assoc_lookup : List (List Nat × Bool) → List Nat → Option Bool
  | [], _ => none
  | p :: rest, k => if p.1 = k then some p.2 else assoc_lookup rest k

/-- HashMap `get_mut` followed by a store: set the flag of the entry with
exactly this key, if present. -/
def assoc_set (regs : List (List Nat × Bool)) (k : List Nat) (v : Bool) :
    List (List Nat × Bool) :=
  regs.map (fun p => if p.1 = k then (p.1, v) else p)

/-- HashMap `contains_key`. -/
def contains_key (regs : List (List Nat × Bool)) (k : List Nat) : Bool :=
  (assoc_lookup regs k).isSome

/-- ASCII lower-casing of one byte (what `str::to_lowercase` does on the
ASCII strings that pass the `is_ascii` check). -/
def lower_byte (b : Nat) : Nat := if 65 ≤ b ∧ b ≤ 90 then b + 32 else b

/-- Embedding of `fix_tracepoint_str` from `lib.rs`: reject non-ASCII, truncate to
`MAX_TRACEPOINT_NAME_LEN` bytes, lower-case. -/
def fix_tracepoint_str (name : List Nat) : Except Unit (List Nat) :=
  if name.all (fun b => b ≤ 127) then
    .ok ((name.take MAX_TRACEPOINT_NAME_LEN).map lower_byte)
  else .error ()

/-- Embedding of `tracy_register` from `lib.rs` (the handle's registry part): returns
the C return code and the updated producer-side registry. -/
def tracy_register (regs : List (List Nat × Bool)) (name : List Nat) :
    Int × List (List Nat × Bool) :=
  match fix_tracepoint_str name with
  | .error _ => (-1, regs)
  | .ok n =>
    if contains_key regs n then (-1, regs)
    else (0, regs ++ [(n, false)])

/-- Embedding of `tracepoint_enabled` from `lib.rs`. -/
def tracepoint_enabled (regs : List (List Nat × Bool)) (name : List Nat) :
    Bool :=
  match assoc_lookup regs name with
  | some truth => truth
  | none => false

/-- Embedding of `tracy_tracepoint_enabled` from `lib.rs`.  Note: unlike
`tracy_register` and `tracy_submit`, the source does NOT call
`fix_tracepoint_str` on the queried name. -/
def tracy_tracepoint_enabled (regs : List (List Nat × Bool))
    (name : List Nat) : Bool :=
  tracepoint_enabled regs name

/-! ## UTF-8 validation (`std::str::from_utf8`) -/

/-- A UTF-8 continuation byte. -/
def is_cont (b : Nat) : Bool := 0x80 ≤ b && b ≤ 0xBF

/-- Validity of a byte sequence as UTF-8, as checked by
`std::str::from_utf8` (rejecting overlong forms and surrogates). -/
def valid_utf8 : List Nat → Bool
  | [] => true
  | b :: rest =>
    if b ≤ 0x7F then valid_utf8 rest
    else if 0xC2 ≤ b && b ≤ 0xDF then
      match rest with
      | c1 :: r => is_cont c1 && valid_utf8 r
      | [] => false
    else if b = 0xE0 then
      match rest with
      | c1 :: c2 :: r => (0xA0 ≤ c1 && c1 ≤ 0xBF) && is_cont c2 && valid_utf8 r
      | _ => false
    else if (0xE1 ≤ b && b ≤ 0xEC) || b = 0xEE || b = 0xEF then
      match rest with
      | c1 :: c2 :: r => is_cont c1 && is_cont c2 && valid_utf8 r
      | _ => false
    else if b = 0xED then
      match rest with
      | c1 :: c2 :: r => (0x80 ≤ c1 && c1 ≤ 0x9F) && is_cont c2 && valid_utf8 r
      | _ => false
    else if b = 0xF0 then
      match rest with
      | c1 :: c2 :: c3 :: r =>
        (0x90 ≤ c1 && c1 ≤ 0xBF) && is_cont c2 && is_cont c3 && valid_utf8 r
      | _ => false
    else if 0xF1 ≤ b && b ≤ 0xF3 then
      match rest with
      | c1 :: c2 :: c3 :: r =>
        is_cont c1 && is_cont c2 && is_cont c3 && valid_utf8 r
      | _ => false
    else if b = 0xF4 then
      match rest with
      | c1 :: c2 :: c3 :: r =>
        (0x80 ≤ c1 && c1 ≤ 0x8F) && is_cont c2 && is_cont c3 && valid_utf8 r
      | _ => false
    else false

/-- Embedding of `str::from_utf8(..).unwrap_or_default()`: the bytes themselves when
they are valid UTF-8, the empty string otherwise. -/
def utf8_or_empty (bytes : List Nat) : List Nat :=
  if valid_utf8 bytes then bytes else []

/-! ## Enable/Disable body parsing (`set_tracepoints` in `tcp_handler.rs`)

The `while i < len` loop is embedded with fuel; every iteration advances
`i` by at least 2, so `len` units of fuel always suffice (proved below).
`teardown` is the `close_and_clean_connection(); return` path, `ok` the
normal exit carrying the updated registry and the loop counter `i`, which
is exactly the number of body bytes read from the stream. -/

inductive SetTpResult where
  | teardown
  | ok (regs : List (List Nat × Bool)) (consumed : Nat)
deriving DecidableEq

def set_tracepoints_loop :
    Nat → List (List Nat × Bool) → Nat → Nat → List Nat → Bool →
    Option SetTpResult
  | 0, regs, len, i, _, _ =>
    if i < len then none else some (.ok regs i)
  | fuel + 1, regs, len, i, stream, st =>
    if i < len then
      if stream.length < 2 then some .teardown
      else
        let name_len := from_be16 (stream.getD 0 0) (stream.getD 1 0)
        if MAX_TRACEPOINT_NAME_LEN < name_len then some .teardown
        else if (stream.drop 2).length < name_len then some .teardown
        else
          set_tracepoints_loop fuel
            (assoc_set regs (utf8_or_empty ((stream.drop 2).take name_len)) st)
            len (i + 2 + name_len) ((stream.drop 2).drop name_len) st
    else some (.ok regs i)

/-- Embedding of `set_tracepoints` from `tcp_handler.rs`, reading from the available
stream bytes; a failed `read_exact` (fewer bytes available than
requested) is the short-read teardown. -/
def set_tracepoints (regs : List (List Nat × Bool)) (len : Nat)
    (stream : List Nat) (st : Bool) : Option SetTpResult :=
  set_tracepoints_loop len regs len 0 stream st

/-! ## Wire encoding of enable/disable records (collector side) -/

/-- One `(u16 name_len, name bytes)` record. -/
def enc_record (name : List Nat) : List Nat := to_be16 name.length ++ name

/-- A concatenated list of records. -/
def enc_records : List (List Nat) → List Nat
  | [] => []
  | n :: ns => enc_record n ++ enc_records ns

/-- The registry updates `set_tracepoints` performs for a list of names. -/
def apply_set (regs : List (List Nat × Bool)) :
    List (List Nat) → Bool → List (List Nat × Bool)
  | [], _ => regs
  | n :: ns, st => apply_set (assoc_set regs (utf8_or_empty n) st) ns st

/-- The bounds the embedding API enforces on every buffered event:
names pass through `fix_tracepoint_str` (≤ 32 bytes) and payloads through
`tracy_submit`'s length check (1..=2048 bytes). -/
def elem_bounded (e : BufferElement) : Prop :=
  e.tracepoint.length ≤ MAX_TRACEPOINT_NAME_LEN ∧
  1 ≤ e.data.length ∧ e.data.length ≤ MAX_SUBMIT_LEN

/-! ## Concrete inputs used by the per-claim theorems -/

def c1_e : BufferElement := { tracepoint := [97], timestamp := 0, data := [0] }

def c1_ctx : TracerContext :=
  { buffer := [], buffer_occupancy := 0, connection := some (),
    client_connected := true, queue_timeout := false, udp_timeout := false,
    tracepoints := [] }

def c1_after : TracerContext :=
  { buffer := [], buffer_occupancy := 10, connection := some (),
    client_connected := true, queue_timeout := false, udp_timeout := false,
    tracepoints := [] }

def c2_header : List Nat := [0x52, 0x75, 0x53, 0x74, 0, 0, 0, 1, 0, 0, 0, 5]

def c2_header' : List Nat := [0x52, 0x75, 0x53, 0x74, 0, 0, 0, 5, 0, 0, 0, 0]

def c3_e : BufferElement := { tracepoint := [97], timestamp := 0, data := [0] }

def c3_s1 : TracerContext :=
  { buffer := [], buffer_occupancy := 0, connection := some (),
    client_connected := true, queue_timeout := false, udp_timeout := false,
    tracepoints := [] }

def c3_s2 : TracerContext :=
  { buffer := [], buffer_occupancy := 0, connection := none,
    client_connected := false, queue_timeout := false, udp_timeout := true,
    tracepoints := [] }

def c3_s3 : TracerContext :=
  { buffer := [c3_e], buffer_occupancy := 10, connection := none,
    client_connected := false, queue_timeout := true, udp_timeout := true,
    tracepoints := [] }

def c4_e1 : BufferElement :=
  { tracepoint := List.replicate 32 97, timestamp := 0,
    data := List.replicate 2048 0 }

def c4_e2 : BufferElement :=
  { tracepoint := List.replicate 32 97, timestamp := 0,
    data := List.replicate 1951 0 }

/-- The single frame emitted when flushing `[c4_e1, c4_e2]`. -/
def c4_frame : List Nat :=
  push_front_header
    (encode_append_trace_data (encode_append_trace_data [] c4_e1) c4_e2)
    Command.tracePush

def c4_w_e : BufferElement := { tracepoint := [97], timestamp := 0, data := [0] }

def c4_w_frames : List (List Nat) :=
  (send_trace_loop 3 [c4_w_e] [] true).getD []

def c10_w_e : BufferElement :=
  { tracepoint := [97], timestamp := 0, data := [0] }

def c7_s1 : TracerContext :=
  { buffer := [], buffer_occupancy := 0, connection := some (),
    client_connected := true, queue_timeout := false, udp_timeout := false,
    tracepoints := [] }

def c7_s2 : TracerContext :=
  { buffer := [], buffer_occupancy := 0, connection := none,
    client_connected := false, queue_timeout := false, udp_timeout := true,
    tracepoints := [] }

def c9_n1 : List Nat := List.replicate 32 97 ++ [195]

def c9_n2 : List Nat := List.replicate 32 97 ++ [98]

/-! ## Helper lemmas -/

theorem length_push_front_header (que : List Nat) (cmd : Command) :
    (push_front_header que cmd).length = que.length + 12 := by
  simp [push_front_header, MAGIC_NUMB, to_be16, to_be32]

theorem length_encode_append (que : List Nat) (e : BufferElement) :
    (encode_append_trace_data que e).length = que.length + e.len + 4 := by
  simp [encode_append_trace_data, to_be16, to_be64, BufferElement.len,
    TIMESTAMP_LEN]
  omega

theorem send_trace_loop_cons_fits (fuel : Nat) (front : BufferElement)
    (rest : List BufferElement) (que : List Nat) (lastc : Bool)
    (h : front.len + que.length + HEADER_LEN < QUEUE_TOTAL_SIZE) :
    send_trace_loop (fuel + 1) (front :: rest) que lastc =
      send_trace_loop fuel rest (encode_append_trace_data que front) false := by
  simp [send_trace_loop, h]

theorem send_trace_loop_nil_incomplete (fuel : Nat) (que : List Nat) :
    send_trace_loop (fuel + 1) [] que false =
      some [push_front_header que Command.tracePush] := by
  simp [send_trace_loop]

/-! ## Claim theorems -/

/-- C1: the batching buffer's occupancy counter is claimed to equal the
summed lengths of the elements currently buffered after every enqueue and
dequeue.  The code never decreases `buffer_occupancy` when `send_trace_data`
pops elements, so after a flush drains the buffer the counter still holds
the pre-flush value: enqueuing one 10-byte element and flushing leaves an
empty buffer with occupancy 10 instead of 0. -/
theorem c1_occupancy_bug :
    send_trace_data (c1_ctx.append c1_e) = some c1_after ∧
    c1_after.buffer = [] ∧
    c1_after.buffer_occupancy = 10 ∧
    (c1_after.buffer.map BufferElement.len).sum = 0 ∧
    c1_after.buffer_occupancy ≠ (c1_after.buffer.map BufferElement.len).sum :=
  ⟨rfl, rfl, rfl, rfl, by decide⟩

/-- C2: the claim says a header whose command is outside {1,3,4}, or whose
length is inconsistent with its command, closes the connection and is never
executed.  In the source `check_parse_header` computes `check_cmd_validity`
but discards its result, so such headers are returned as `Ok` and
dispatched: a TracepointListRequest header with length 5 (invalid) and a
TracePush header (command 5, not permitted from the collector) both
parse successfully instead of tearing the connection down. -/
theorem c2_header_validation_bug :
    check_cmd_validity (cmd_number_to_enum 1) 5 = .error () ∧
    check_parse_header c2_header = .ok (Command.tracepointListRequest, 5) ∧
    check_cmd_validity (cmd_number_to_enum 5) 0 = .error () ∧
    check_parse_header c2_header' = .ok (Command.tracePush, 0) :=
  ⟨rfl, rfl, rfl, rfl⟩

/-- C3: the claim says handling a Payload while no connection exists never
panics.  But `channel_data_handler` arms the flush timer even when
disconnected, and when that timer fires `send_trace_data` reaches
`send_slices`, which unwraps the absent connection and panics.  The state
`c3_s3` (one raced 10-byte payload buffered after a disconnect) is
reachable from startup, and the flush-timer step from it does not return
normally (`none`). -/
theorem c3_disconnected_flush_panics :
    Reaches false c3_s3 ∧
    c3_s3.connection = none ∧
    engine_step c3_s3 EngineEvent.queueFire = none :=
  ⟨Reaches.step c3_s2 (EngineEvent.payload c3_e) c3_s3
    (Reaches.step c3_s1 EngineEvent.close c3_s2
      (Reaches.step (init_context false) EngineEvent.accept c3_s1
        Reaches.init rfl)
      rfl)
    rfl,
   rfl, rfl⟩

/-- C4 counterexample: the claim bounds every emitted TracePush frame by
`QUEUE_TOTAL_SIZE` = 4096 bytes including the 12-byte header.  The window
check in `send_trace_data` uses `front.len()` which omits the 4 bytes of
per-event length fields (`u16` name length and `u16` data length);
flushing two events that satisfy the public interface bounds (32-byte
name with 2048- and 1951-byte payloads) yields a single frame of 4099
bytes, exceeding the claimed bound. -/
theorem c4_cex :
    send_trace_loop 5 [c4_e1, c4_e2] [] true = some [c4_frame] ∧
    c4_frame.length = 4099 ∧
    elem_bounded c4_e1 ∧ elem_bounded c4_e2 ∧
    ¬ (4099 ≤ QUEUE_TOTAL_SIZE) := by
  have hl1 : c4_e1.len = 2088 := by
    simp [c4_e1, BufferElement.len, TIMESTAMP_LEN]
  have hl2 : c4_e2.len = 1991 := by
    simp [c4_e2, BufferElement.len, TIMESTAMP_LEN]
  have hq1 : (encode_append_trace_data [] c4_e1).length = 2092 := by
    rw [length_encode_append, hl1]; rfl
  have hq2 : (encode_append_trace_data (encode_append_trace_data [] c4_e1)
      c4_e2).length = 4087 := by
    rw [length_encode_append, hq1, hl2]
  refine ⟨?_, ?_, ?_, ?_, by decide⟩
  · rw [send_trace_loop_cons_fits 4 c4_e1 [c4_e2] [] true
      (by simp [hl1, HEADER_LEN, QUEUE_TOTAL_SIZE])]
    rw [send_trace_loop_cons_fits 3 c4_e2 []
      (encode_append_trace_data [] c4_e1) false
      (by rw [hl2, hq1]; decide)]
    rw [send_trace_loop_nil_incomplete]
    rfl
  · rw [c4_frame, length_push_front_header, hq2]
  · exact ⟨by simp [c4_e1, MAX_TRACEPOINT_NAME_LEN],
      by simp [c4_e1], by simp [c4_e1, MAX_SUBMIT_LEN]⟩
  · exact ⟨by simp [c4_e2, MAX_TRACEPOINT_NAME_LEN],
      by simp [c4_e2], by simp [c4_e2, MAX_SUBMIT_LEN]⟩

/-- C6 counterexample: the claim says `is_enabled` normalizes the queried
name, so a query differing from a registered name only in letter case
returns that tracepoint's flag.  The source performs no normalization:
with "ab" registered and enabled, querying "AB" returns false instead of
the registered flag's value true. -/
theorem c6_cex :
    tracy_tracepoint_enabled [([97, 98], true)] [65, 66] = false ∧
    List.map lower_byte [65, 66] = [97, 98] ∧
    assoc_lookup [([97, 98], true)] [97, 98] = some true :=
  ⟨rfl, rfl, rfl⟩

/-- C7 counterexample: the claim is an iff — announce timer armed exactly
when announcement is configured AND no connection exists.
`close_and_clean_connection` calls `check_start_udp_timer`
unconditionally, so with announcement NOT configured, an accept followed
by a close reaches a quiescent state whose announce timer is armed,
refuting the iff. -/
theorem c7_cex :
    Reaches false c7_s2 ∧
    c7_s2.udp_timeout = true ∧
    ¬ (c7_s2.udp_timeout = true ↔ (false = true ∧ c7_s2.connection = none)) :=
  ⟨Reaches.step c7_s1 EngineEvent.close c7_s2
    (Reaches.step (init_context false) EngineEvent.accept c7_s1
      Reaches.init rfl)
    rfl,
   rfl, by decide⟩

/-- C8 counterexample: the claim says parsing consumes exactly the declared
length L before returning.  The loop condition is `i < len` and each pass
consumes 2 + name_len bytes, so a body whose records do not align with L
overshoots: with L = 3 and stream bytes 00 00 00 00 (two zero-length
records), 4 bytes are consumed, not 3. -/
theorem c8_cex :
    set_tracepoints [] 3 [0, 0, 0, 0] true = some (SetTpResult.ok [] 4) ∧
    (4 : Nat) ≠ 3 :=
  ⟨rfl, by decide⟩

/-- C9 counterexample: the claim says that for every pair of names
differing only in characters past the 32nd byte, registering the second
after the first returns -1.  If the first name is rejected as non-ASCII
(returning -1 and registering nothing), the second registration can
succeed: 32 'a's followed by byte 195 versus 32 'a's followed by 'b'
differ only at position 32, yet the second call returns 0. -/
theorem c9_cex :
    c9_n1.take 32 = c9_n2.take 32 ∧
    c9_n1 ≠ c9_n2 ∧
    (tracy_register (tracy_register [] c9_n1).2 c9_n2).1 = 0 ∧
    (0 : Int) ≠ -1 :=
  ⟨by decide, by decide, by decide, by decide⟩

/-- C5: every frame the agent emits is built by `push_front_header` with
command TracepointListReply (2) or TracePush (5); the resulting bytes
start with the magic, carry zero flags, the command's code, and a 4-byte
big-endian length equal to the byte count of the body following the
12-byte header, the body being exactly the queued bytes. -/
theorem c5_frame_wellformed :
    ∀ (que : List Nat) (cmd : Command),
      (cmd = Command.tracepointListReply ∨ cmd = Command.tracePush) →
      que.length < 4294967296 →
      (push_front_header que cmd).take 4 = MAGIC_NUMB ∧
      (push_front_header que cmd).getD 4 0 = 0 ∧
      (push_front_header que cmd).getD 5 0 = 0 ∧
      from_be16 ((push_front_header que cmd).getD 6 0)
          ((push_front_header que cmd).getD 7 0) = cmd.code ∧
      (cmd.code = 2 ∨ cmd.code = 5) ∧
      from_be32 ((push_front_header que cmd).getD 8 0)
          ((push_front_header que cmd).getD 9 0)
          ((push_front_header que cmd).getD 10 0)
          ((push_front_header que cmd).getD 11 0) =
        ((push_front_header que cmd).drop 12).length ∧
      (push_front_header que cmd).drop 12 = que := by
  intro que cmd hc hlen
  rcases hc with h | h <;> subst h
  · refine ⟨rfl, rfl, rfl, rfl, Or.inl rfl, ?_, rfl⟩
    show from_be32 (que.length / 16777216 % 256) (que.length / 65536 % 256)
        (que.length / 256 % 256) (que.length % 256) = que.length
    simp only [from_be32]
    omega
  · refine ⟨rfl, rfl, rfl, rfl, Or.inr rfl, ?_, rfl⟩
    show from_be32 (que.length / 16777216 % 256) (que.length / 65536 % 256)
        (que.length / 256 % 256) (que.length % 256) = que.length
    simp only [from_be32]
    omega

/-- C5 witness: the well-formedness properties evaluated on the concrete
frame with body `[7]` and command TracePush. -/
theorem c5_witness :
    (push_front_header [7] Command.tracePush).take 4 = MAGIC_NUMB ∧
    (push_front_header [7] Command.tracePush).getD 4 0 = 0 ∧
    (push_front_header [7] Command.tracePush).getD 5 0 = 0 ∧
    from_be16 ((push_front_header [7] Command.tracePush).getD 6 0)
        ((push_front_header [7] Command.tracePush).getD 7 0) =
      Command.code Command.tracePush ∧
    (Command.code Command.tracePush = 2 ∨
      Command.code Command.tracePush = 5) ∧
    from_be32 ((push_front_header [7] Command.tracePush).getD 8 0)
        ((push_front_header [7] Command.tracePush).getD 9 0)
        ((push_front_header [7] Command.tracePush).getD 10 0)
        ((push_front_header [7] Command.tracePush).getD 11 0) =
      ((push_front_header [7] Command.tracePush).drop 12).length ∧
    (push_front_header [7] Command.tracePush).drop 12 = [7] :=
  c5_frame_wellformed [7] Command.tracePush (Or.inr rfl) (by decide)

/-- Every loop iteration of the flush either pops the head element or, if
the window cannot take it, sends the window; with all elements inside the
public-interface bounds the window-fits test always succeeds on an empty
window, so `2·|buffer| + 1` iterations suffice. -/
theorem send_trace_loop_total :
    ∀ (fuel : Nat) (buffer : List BufferElement) (que : List Nat)
      (lastc : Bool),
      (∀ e ∈ buffer, elem_bounded e) →
      2 * buffer.length + (if que = [] then 0 else 1) < fuel →
      (send_trace_loop fuel buffer que lastc).isSome = true := by
  intro fuel
  induction fuel with
  | zero =>
    intro buffer que lastc _ h
    exact absurd h (Nat.not_lt_zero _)
  | succ fuel ih =>
    intro buffer que lastc hb h
    match buffer with
    | [] => cases lastc <;> simp [send_trace_loop]
    | front :: rest =>
      by_cases hfit : front.len + que.length + HEADER_LEN < QUEUE_TOTAL_SIZE
      · rw [send_trace_loop_cons_fits fuel front rest que lastc hfit]
        apply ih _ _ _ (fun e he => hb e (List.mem_cons_of_mem _ he))
        have hne : encode_append_trace_data que front ≠ [] := by
          intro hco
          have hlen := length_encode_append que front
          rw [hco] at hlen
          simp at hlen
        rw [if_neg hne]
        by_cases hq : que = []
        · rw [if_pos hq] at h
          simp only [List.length_cons] at h
          omega
        · rw [if_neg hq] at h
          simp only [List.length_cons] at h
          omega
      · have hfb := hb front (List.mem_cons_self front rest)
        have hq : que ≠ [] := by
          intro hqe
          subst hqe
          rcases hfb with ⟨h1, h2, h3⟩
          simp only [MAX_TRACEPOINT_NAME_LEN, MAX_SUBMIT_LEN] at h1 h3
          apply hfit
          simp only [BufferElement.len, TIMESTAMP_LEN, List.length_nil,
            HEADER_LEN, QUEUE_TOTAL_SIZE]
          omega
        have hstep : send_trace_loop (fuel + 1) (front :: rest) que lastc =
            (send_trace_loop fuel (front :: rest) [] true).map
              (fun fs => push_front_header que Command.tracePush :: fs) := by
          simp [send_trace_loop, hfit]
        have hrec : (send_trace_loop fuel (front :: rest) [] true).isSome =
            true := by
          apply ih _ _ _ hb
          rw [if_neg hq] at h
          simp only [List.length_cons] at h
          simp
          omega
        rcases Option.isSome_iff_exists.mp hrec with ⟨v, hv⟩
        rw [hstep, hv]
        rfl

/-- C10: the flush-packing loop terminates for every buffer whose
elements satisfy the public-interface bounds (name ≤ 32 bytes, payload
1..=2048 bytes): with fuel `2·|buffer| + 1` the loop finishes (no
infinite loop of empty-frame sends is possible). -/
theorem c10_flush_terminates :
    ∀ buffer : List BufferElement,
      (∀ e ∈ buffer, elem_bounded e) →
      (send_trace_loop (2 * buffer.length + 1) buffer [] true).isSome =
        true := by
  intro buffer hb
  apply send_trace_loop_total _ _ _ _ hb
  rw [if_pos rfl]
  omega

/-- C10 witness: the loop terminates on a concrete one-element buffer
within the bounds. -/
theorem c10_witness :
    (send_trace_loop 3 [c10_w_e] [] true).isSome = true :=
  c10_flush_terminates [c10_w_e] (by
    intro e he
    simp only [List.mem_singleton] at he
    subst he
    exact ⟨by decide, by decide, by decide⟩)

/-- A flush changes only the buffer: announce timer and connection are
untouched by `send_trace_data`. -/
theorem send_trace_data_fields (c c' : TracerContext)
    (h : send_trace_data c = some c') :
    c'.udp_timeout = c.udp_timeout ∧ c'.connection = c.connection := by
  unfold send_trace_data at h
  split at h
  · exact Option.noConfusion h
  · split at h
    · constructor <;> (rw [← Option.some.inj h]; try simp)
    · split at h
      · constructor <;> (rw [← Option.some.inj h]; try simp)
      · exact Option.noConfusion h

/-- Transfer of the announce-timer invariant along a step that changes
neither the announce timer nor the connection. -/
theorem announce_invariant_transfer (a : Bool) (s s' : TracerContext)
    (h2 : s'.udp_timeout = s.udp_timeout) (h3 : s'.connection = s.connection)
    (ih : (s.udp_timeout = true → s.connection = none) ∧
      (a = true → s.connection = none → s.udp_timeout = true)) :
    (s'.udp_timeout = true → s'.connection = none) ∧
    (a = true → s'.connection = none → s'.udp_timeout = true) := by
  constructor
  · intro h1
    rw [h2] at h1
    rw [h3]
    exact ih.1 h1
  · intro ha hc
    rw [h3] at hc
    rw [h2]
    exact ih.2 ha hc

/-- C7 (amended): at every reachable quiescent point, the announce timer
being armed implies no connection exists, and whenever announcement is
configured and no connection exists the announce timer is armed.  (The
converse direction of the original iff — armed implies configured — is
false: a close transition arms the timer unconditionally, see the
counterexample.) -/
theorem c7_announce_timer_amended :
    ∀ (a : Bool) (s : TracerContext), Reaches a s →
      (s.udp_timeout = true → s.connection = none) ∧
      (a = true → s.connection = none → s.udp_timeout = true) := by
  intro a s h
  induction h with
  | init => exact ⟨fun h1 => rfl, fun ha _ => ha⟩
  | step s ev s' hr hstep ih =>
    cases ev with
    | accept =>
      cases hc : s.connection with
      | none =>
        simp only [engine_step, hc, Option.isNone_none, if_true] at hstep
        have := Option.some.inj hstep
        rw [← this]
        exact ⟨fun h1 => by
            simp [check_stop_udp_timer, establish_connection] at h1,
          fun ha hcon => by
            simp [check_stop_udp_timer, establish_connection] at hcon⟩
      | some u =>
        simp only [engine_step, hc, Option.isNone_some,
          Bool.false_eq_true, if_false] at hstep
        have := Option.some.inj hstep
        rw [← this]
        exact ih
    | close =>
      cases hc : s.connection with
      | none =>
        simp only [engine_step, hc] at hstep
        exact Option.noConfusion hstep
      | some u =>
        simp only [engine_step, hc] at hstep
        constructor
        · intro _
          rw [← Option.some.inj hstep]
          simp [close_and_clean_connection]
        · intro _ _
          rw [← Option.some.inj hstep]
          simp [close_and_clean_connection]
    | udpFire =>
      cases ht : s.udp_timeout with
      | false =>
        simp only [engine_step, ht, Bool.false_eq_true, if_false] at hstep
        exact Option.noConfusion hstep
      | true =>
        simp only [engine_step, ht, if_true] at hstep
        have := Option.some.inj hstep
        rw [← this]
        refine ⟨fun _ => ?_, fun _ _ => rfl⟩
        exact ih.1 ht
    | queueFire =>
      cases ht : s.queue_timeout with
      | false =>
        simp only [engine_step, ht, Bool.false_eq_true, if_false] at hstep
        exact Option.noConfusion hstep
      | true =>
        simp only [engine_step, ht, if_true] at hstep
        have hp := send_trace_data_fields _ _ hstep
        exact announce_invariant_transfer a s s' hp.1 hp.2 ih
    | newTracepoint n =>
      simp only [engine_step] at hstep
      have h2 : s'.udp_timeout = s.udp_timeout := by
        rw [← Option.some.inj hstep]; simp [insert_tracepoint]
      have h3 : s'.connection = s.connection := by
        rw [← Option.some.inj hstep]; simp [insert_tracepoint]
      exact announce_invariant_transfer a s s' h2 h3 ih
    | payload e =>
      simp only [engine_step, channel_data_handler] at hstep
      split at hstep
      · have hp := send_trace_data_fields _ _ hstep
        have h2 : s'.udp_timeout = s.udp_timeout := by
          rw [hp.1]; simp [check_stop_queue_timer, TracerContext.append]
        have h3 : s'.connection = s.connection := by
          rw [hp.2]; simp [check_stop_queue_timer, TracerContext.append]
        exact announce_invariant_transfer a s s' h2 h3 ih
      · have h2 : s'.udp_timeout = s.udp_timeout := by
          rw [← Option.some.inj hstep]
          simp [check_start_queue_timer, TracerContext.append]
        have h3 : s'.connection = s.connection := by
          rw [← Option.some.inj hstep]
          simp [check_start_queue_timer, TracerContext.append]
        exact announce_invariant_transfer a s s' h2 h3 ih

/-- C7 witness: the amended invariant applied at the initial state of an
announcement-configured engine. -/
theorem c7_witness :
    ((init_context true).udp_timeout = true →
      (init_context true).connection = none) ∧
    (true = true → (init_context true).connection = none →
      (init_context true).udp_timeout = true) :=
  c7_announce_timer_amended true (init_context true) Reaches.init

/-- A name whose registered keys contain no upper-case ASCII byte can
never be found by a query containing one. -/
theorem assoc_lookup_none_of_upper :
    ∀ (regs : List (List Nat × Bool)) (name : List Nat),
      (∀ p ∈ regs, ∀ b ∈ p.1, ¬ (65 ≤ b ∧ b ≤ 90)) →
      (∃ b ∈ name, 65 ≤ b ∧ b ≤ 90) →
      assoc_lookup regs name = none := by
  intro regs
  induction regs with
  | nil => intro name _ _; rfl
  | cons p rest ih =>
    intro name hkeys hupper
    show (if p.1 = name then some p.2 else assoc_lookup rest name) = none
    by_cases he : p.1 = name
    · exfalso
      rcases hupper with ⟨b, hbmem, hb⟩
      exact hkeys p (List.mem_cons_self _ _) b (he ▸ hbmem) hb
    · rw [if_neg he]
      exact ih name (fun q hq => hkeys q (List.mem_cons_of_mem _ hq)) hupper

/-- C6 (amended): `is_enabled` performs NO normalization: it returns the
current flag of the tracepoint registered under the exact queried name,
or false when no such key exists.  In particular, since registration only
stores lower-cased keys, a query containing any upper-case ASCII letter
always returns false (rather than the case-insensitive match the
original claim asserts — see the counterexample). -/
theorem c6_is_enabled_amended :
    ∀ (regs : List (List Nat × Bool)) (name : List Nat),
      tracy_tracepoint_enabled regs name =
        (assoc_lookup regs name).getD false ∧
      ((∀ p ∈ regs, ∀ b ∈ p.1, ¬ (65 ≤ b ∧ b ≤ 90)) →
        (∃ b ∈ name, 65 ≤ b ∧ b ≤ 90) →
        tracy_tracepoint_enabled regs name = false) := by
  intro regs name
  constructor
  · unfold tracy_tracepoint_enabled tracepoint_enabled
    cases h : assoc_lookup regs name <;> simp [h]
  · intro hkeys hupper
    unfold tracy_tracepoint_enabled tracepoint_enabled
    rw [assoc_lookup_none_of_upper regs name hkeys hupper]

/-- C6 witness: with only the lower-case key "a" registered, querying the
upper-case name "A" returns false. -/
theorem c6_witness :
    tracy_tracepoint_enabled [([97], true)] [65] = false :=
  (c6_is_enabled_amended [([97], true)] [65]).2 (by decide) (by decide)

/-- Appending a fresh key to the registry makes it findable. -/
theorem assoc_lookup_append_right :
    ∀ (regs : List (List Nat × Bool)) (k : List Nat) (v : Bool),
      assoc_lookup regs k = none →
      assoc_lookup (regs ++ [(k, v)]) k = some v := by
  intro regs k v h
  induction regs with
  | nil => simp [assoc_lookup]
  | cons p rest ih =>
    rw [List.cons_append]
    show (if p.1 = k then some p.2 else assoc_lookup (rest ++ [(k, v)]) k) =
      some v
    have h' : (if p.1 = k then some p.2 else assoc_lookup rest k) = none := h
    by_cases he : p.1 = k
    · rw [if_pos he] at h'
      exact Option.noConfusion h'
    · rw [if_neg he] at h'
      rw [if_neg he]
      exact ih h'

/-- C9 (amended): registration rejects non-ASCII names with -1, returns
-1 when the normalized name is already present, and otherwise inserts a
fresh disabled flag under the normalized name and returns 0.
Consequently, for every pair of names differing only in letter case or
only in bytes past the 32nd, IF the first registration succeeded
(returned 0), registering the second returns -1.  (Without that
proviso the claim fails: a non-ASCII first name is rejected without
registering anything, letting the second registration succeed — see the
counterexample.) -/
theorem c9_register_amended :
    (∀ (regs : List (List Nat × Bool)) (name : List Nat),
        name.all (fun b => b ≤ 127) = false →
        tracy_register regs name = (-1, regs)) ∧
    (∀ (regs : List (List Nat × Bool)) (name n : List Nat),
        fix_tracepoint_str name = .ok n → contains_key regs n = true →
        tracy_register regs name = (-1, regs)) ∧
    (∀ (regs : List (List Nat × Bool)) (name n : List Nat),
        fix_tracepoint_str name = .ok n → contains_key regs n = false →
        tracy_register regs name = (0, regs ++ [(n, false)])) ∧
    (∀ (regs : List (List Nat × Bool)) (n1 n2 : List Nat),
        (n1.map lower_byte = n2.map lower_byte ∨ n1.take 32 = n2.take 32) →
        (tracy_register regs n1).1 = 0 →
        (tracy_register (tracy_register regs n1).2 n2).1 = -1) := by
  have hfix : ∀ (name n : List Nat), fix_tracepoint_str name = .ok n →
      name.all (fun b => b ≤ 127) = true ∧
        n = (name.take 32).map lower_byte := by
    intro name n h
    unfold fix_tracepoint_str at h
    by_cases ha : name.all (fun b => b ≤ 127) = true
    · rw [if_pos ha] at h
      exact ⟨ha, (Except.ok.inj h).symm⟩
    · rw [if_neg ha] at h
      exact Except.noConfusion h
  refine ⟨?_, ?_, ?_, ?_⟩
  · intro regs name h
    unfold tracy_register fix_tracepoint_str
    rw [if_neg (by simp [h])]
  · intro regs name n h hck
    unfold tracy_register
    rw [h]
    simp [hck]
  · intro regs name n h hck
    unfold tracy_register
    rw [h]
    simp [hck]
  · intro regs n1 n2 hdiff h0
    -- dissect the first, successful registration
    cases hfix1 : fix_tracepoint_str n1 with
    | error e =>
      unfold tracy_register at h0
      rw [hfix1] at h0
      simp at h0
    | ok m1 =>
      have hall1 := hfix n1 m1 hfix1
      cases hck : contains_key regs m1 with
      | true =>
        unfold tracy_register at h0
        rw [hfix1] at h0
        simp [hck] at h0
      | false =>
        have hreg1 : tracy_register regs n1 = (0, regs ++ [(m1, false)]) := by
          unfold tracy_register
          rw [hfix1]
          simp [hck]
        rw [hreg1]
        show (tracy_register (regs ++ [(m1, false)]) n2).1 = -1
        -- now the second registration
        by_cases ha2 : n2.all (fun b => b ≤ 127) = true
        · have hfix2 : fix_tracepoint_str n2 =
              .ok ((n2.take 32).map lower_byte) := by
            unfold fix_tracepoint_str
            rw [if_pos ha2]
            rfl
          have hm : (n2.take 32).map lower_byte = m1 := by
            rw [hall1.2]
            rcases hdiff with hmap | htake
            · rw [List.map_take, List.map_take, hmap]
            · rw [htake]
          have hnone : assoc_lookup regs m1 = none := by
            unfold contains_key at hck
            cases hl : assoc_lookup regs m1 with
            | none => rfl
            | some v => rw [hl] at hck; exact Bool.noConfusion hck
          have hck2 : contains_key (regs ++ [(m1, false)]) m1 = true := by
            unfold contains_key
            rw [assoc_lookup_append_right regs m1 false hnone]
            rfl
          unfold tracy_register
          rw [hfix2]
          simp [hm, hck2]
        · have hfix2 : fix_tracepoint_str n2 = .error () := by
            unfold fix_tracepoint_str
            rw [if_neg ha2]
          unfold tracy_register
          rw [hfix2]

/-- C9 witness: registering "A" (normalized to "a") succeeds, after which
registering "a" — the same name up to letter case — returns -1. -/
theorem c9_witness :
    (tracy_register (tracy_register [] [65]).2 [97]).1 = -1 :=
  c9_register_amended.2.2.2 [] [65] [97] (Or.inl (by decide)) (by decide)

/-! ## Lemmas about enable/disable body parsing -/

theorem length_enc_records_cons (n : List Nat) (ns : List (List Nat)) :
    (enc_records (n :: ns)).length =
      2 + n.length + (enc_records ns).length := by
  simp [enc_records, enc_record, to_be16]
  omega

theorem names_le_enc_records :
    ∀ names : List (List Nat), names.length ≤ (enc_records names).length := by
  intro names
  induction names with
  | nil => simp
  | cons n ns ih =>
    rw [length_enc_records_cons, List.length_cons]
    omega

theorem setp_at_end (fuel : Nat) (regs : List (List Nat × Bool)) (len : Nat)
    (stream : List Nat) (st : Bool) :
    set_tracepoints_loop fuel regs len len stream st =
      some (SetTpResult.ok regs len) := by
  cases fuel <;> simp [set_tracepoints_loop]

/-- Running the parsing loop over well-formed records: each record is
consumed in one iteration, applying its registry update and advancing the
counter by its encoded length. -/
theorem setp_run_records :
    ∀ (names : List (List Nat)) (fuel : Nat)
      (regs : List (List Nat × Bool)) (i : Nat) (rest : List Nat)
      (st : Bool) (len : Nat),
      (∀ n ∈ names, n.length ≤ 32) →
      i + (enc_records names).length ≤ len →
      set_tracepoints_loop (fuel + names.length) regs len i
          (enc_records names ++ rest) st =
        set_tracepoints_loop fuel (apply_set regs names st) len
          (i + (enc_records names).length) rest st := by
  intro names
  induction names with
  | nil =>
    intro fuel regs i rest st len _ _
    simp [enc_records, apply_set]
  | cons n ns ih =>
    intro fuel regs i rest st len hb hlen
    have hb' : ∀ m ∈ ns, m.length ≤ 32 :=
      fun m hm => hb m (List.mem_cons_of_mem _ hm)
    have hn : n.length ≤ 32 := hb n (List.mem_cons_self _ _)
    have hcl := length_enc_records_cons n ns
    have hflen : fuel + (n :: ns).length = (fuel + ns.length) + 1 := by
      rw [List.length_cons]
      omega
    have hi : i < len := by omega
    have hstream : enc_records (n :: ns) ++ rest =
        (n.length / 256 % 256) :: (n.length % 256) ::
          (n ++ (enc_records ns ++ rest)) := by
      simp [enc_records, enc_record, to_be16]
    rw [hflen, hstream]
    show set_tracepoints_loop ((fuel + ns.length) + 1) regs len i
        ((n.length / 256 % 256) :: (n.length % 256) ::
          (n ++ (enc_records ns ++ rest))) st = _
    simp only [set_tracepoints_loop]
    rw [if_pos hi]
    have hlen2 : ¬ (((n.length / 256 % 256) :: (n.length % 256) ::
        (n ++ (enc_records ns ++ rest))).length < 2) := by
      simp
    rw [if_neg hlen2]
    have hbe : from_be16
        (((n.length / 256 % 256) :: (n.length % 256) ::
          (n ++ (enc_records ns ++ rest))).getD 0 0)
        (((n.length / 256 % 256) :: (n.length % 256) ::
          (n ++ (enc_records ns ++ rest))).getD 1 0) = n.length := by
      simp [List.getD, from_be16]
      omega
    rw [hbe]
    rw [if_neg (by simp [MAX_TRACEPOINT_NAME_LEN]; omega)]
    have hdrop : ((n.length / 256 % 256) :: (n.length % 256) ::
        (n ++ (enc_records ns ++ rest))).drop 2 =
      n ++ (enc_records ns ++ rest) := rfl
    rw [hdrop]
    rw [if_neg (by simp)]
    rw [List.take_left, List.drop_left]
    rw [ih fuel (assoc_set regs (utf8_or_empty n) st) (i + 2 + n.length)
      rest st len hb' (by omega)]
    have hidx : i + (enc_records (n :: ns)).length =
        i + 2 + n.length + (enc_records ns).length := by omega
    rw [hidx]
    rfl

/-- Setting an absent key changes nothing. -/
theorem assoc_set_missing :
    ∀ (regs : List (List Nat × Bool)) (k : List Nat) (v : Bool),
      assoc_lookup regs k = none → assoc_set regs k v = regs := by
  intro regs k v h
  induction regs with
  | nil => rfl
  | cons p rest ih =>
    have h' : (if p.1 = k then some p.2 else assoc_lookup rest k) = none := h
    by_cases he : p.1 = k
    · rw [if_pos he] at h'
      exact Option.noConfusion h'
    · rw [if_neg he] at h'
      show (if p.1 = k then (p.1, v) else p) :: assoc_set rest k v = p :: rest
      rw [if_neg he, ih h']

/-- The loop never stops before the declared length: on a normal exit the
consumed byte count is at least `len`. -/
theorem setp_consumed_ge :
    ∀ (fuel : Nat) (regs : List (List Nat × Bool)) (len i : Nat)
      (stream : List Nat) (st : Bool) (r : List (List Nat × Bool)) (c : Nat),
      set_tracepoints_loop fuel regs len i stream st =
        some (SetTpResult.ok r c) →
      len ≤ c := by
  intro fuel
  induction fuel with
  | zero =>
    intro regs len i stream st r c h
    unfold set_tracepoints_loop at h
    split at h
    · exact Option.noConfusion h
    · have := SetTpResult.ok.inj (Option.some.inj h)
      omega
  | succ fuel ih =>
    intro regs len i stream st r c h
    unfold set_tracepoints_loop at h
    split at h
    · split at h
      · exact SetTpResult.noConfusion (Option.some.inj h)
      · simp only [] at h
        split at h
        · exact SetTpResult.noConfusion (Option.some.inj h)
        · split at h
          · exact SetTpResult.noConfusion (Option.some.inj h)
          · exact ih _ _ _ _ _ _ _ h
    · have := SetTpResult.ok.inj (Option.some.inj h)
      omega

/-- Parsing a body consisting exactly of well-formed records consumes
exactly the declared length and applies each record's registry update. -/
theorem setp_records_exact :
    ∀ (regs : List (List Nat × Bool)) (st : Bool) (names : List (List Nat))
      (rest : List Nat),
      (∀ n ∈ names, n.length ≤ MAX_TRACEPOINT_NAME_LEN) →
      set_tracepoints regs (enc_records names).length
          (enc_records names ++ rest) st =
        some (SetTpResult.ok (apply_set regs names st)
          (enc_records names).length) := by
  intro regs st names rest hb
  unfold set_tracepoints
  have hge := names_le_enc_records names
  have hsplit : (enc_records names).length =
      ((enc_records names).length - names.length) + names.length := by omega
  nth_rewrite 1 [hsplit]
  rw [setp_run_records names ((enc_records names).length - names.length)
    regs 0 rest st (enc_records names).length (fun n hn => hb n hn)
    (by omega)]
  rw [Nat.zero_add]
  exact setp_at_end _ _ _ _ _

/-- A record whose declared name length exceeds 32 tears the connection
down (provided the declared body length has not yet been consumed). -/
theorem setp_bad_namelen :
    ∀ (regs : List (List Nat × Bool)) (st : Bool) (names : List (List Nat))
      (k : Nat) (rest : List Nat) (L : Nat),
      (∀ n ∈ names, n.length ≤ MAX_TRACEPOINT_NAME_LEN) →
      MAX_TRACEPOINT_NAME_LEN < k → k < 65536 →
      (enc_records names).length + 2 ≤ L →
      set_tracepoints regs L (enc_records names ++ (to_be16 k ++ rest)) st =
        some SetTpResult.teardown := by
  intro regs st names k rest L hb hk hk2 hL
  unfold set_tracepoints
  have hge := names_le_enc_records names
  have hsplit : L = (L - names.length) + names.length := by omega
  nth_rewrite 1 [hsplit]
  rw [setp_run_records names (L - names.length) regs 0 (to_be16 k ++ rest)
    st L (fun n hn => hb n hn) (by omega)]
  rw [Nat.zero_add]
  obtain ⟨m, hm⟩ : ∃ m, L - names.length = m + 1 :=
    ⟨L - names.length - 1, by omega⟩
  rw [hm]
  show set_tracepoints_loop (m + 1) (apply_set regs names st) L
      (enc_records names).length ((k / 256 % 256) :: (k % 256) :: rest) st =
    some SetTpResult.teardown
  simp only [set_tracepoints_loop]
  rw [if_pos (by omega : (enc_records names).length < L)]
  rw [if_neg (by simp : ¬ ((k / 256 % 256) :: (k % 256) :: rest).length < 2)]
  have hbe : from_be16
      (((k / 256 % 256) :: (k % 256) :: rest).getD 0 0)
      (((k / 256 % 256) :: (k % 256) :: rest).getD 1 0) = k := by
    simp [List.getD, from_be16]
    simp only [MAX_TRACEPOINT_NAME_LEN] at hk
    omega
  rw [hbe]
  rw [if_pos hk]

/-- A body that ends before the next u16 name length can be read tears
the connection down. -/
theorem setp_short_header :
    ∀ (regs : List (List Nat × Bool)) (st : Bool) (names : List (List Nat))
      (L : Nat),
      (∀ n ∈ names, n.length ≤ MAX_TRACEPOINT_NAME_LEN) →
      (enc_records names).length < L →
      set_tracepoints regs L (enc_records names) st =
        some SetTpResult.teardown := by
  intro regs st names L hb hlt
  unfold set_tracepoints
  have hge := names_le_enc_records names
  have hsplit : L = (L - names.length) + names.length := by omega
  nth_rewrite 1 [hsplit]
  rw [← List.append_nil (enc_records names)]
  rw [setp_run_records names (L - names.length) regs 0 [] st L
    (fun n hn => hb n hn) (by simp; omega)]
  rw [Nat.zero_add]
  obtain ⟨m, hm⟩ : ∃ m, L - names.length = m + 1 :=
    ⟨L - names.length - 1, by omega⟩
  rw [hm]
  simp only [set_tracepoints_loop]
  rw [if_pos (by omega : (enc_records names).length < L)]
  rw [if_pos (by simp : ([] : List Nat).length < 2)]

/-- A body that ends inside the name bytes of a record tears the
connection down. -/
theorem setp_short_name :
    ∀ (regs : List (List Nat × Bool)) (st : Bool) (names : List (List Nat))
      (k : Nat) (nb : List Nat) (L : Nat),
      (∀ n ∈ names, n.length ≤ MAX_TRACEPOINT_NAME_LEN) →
      k ≤ MAX_TRACEPOINT_NAME_LEN → nb.length < k →
      (enc_records names).length < L →
      set_tracepoints regs L (enc_records names ++ (to_be16 k ++ nb)) st =
        some SetTpResult.teardown := by
  intro regs st names k nb L hb hk hnb hlt
  unfold set_tracepoints
  have hge := names_le_enc_records names
  have hsplit : L = (L - names.length) + names.length := by omega
  nth_rewrite 1 [hsplit]
  rw [setp_run_records names (L - names.length) regs 0 (to_be16 k ++ nb)
    st L (fun n hn => hb n hn) (by omega)]
  rw [Nat.zero_add]
  obtain ⟨m, hm⟩ : ∃ m, L - names.length = m + 1 :=
    ⟨L - names.length - 1, by omega⟩
  rw [hm]
  show set_tracepoints_loop (m + 1) (apply_set regs names st) L
      (enc_records names).length ((k / 256 % 256) :: (k % 256) :: nb) st =
    some SetTpResult.teardown
  simp only [set_tracepoints_loop]
  rw [if_pos (by omega : (enc_records names).length < L)]
  rw [if_neg (by simp : ¬ ((k / 256 % 256) :: (k % 256) :: nb).length < 2)]
  have hbe : from_be16
      (((k / 256 % 256) :: (k % 256) :: nb).getD 0 0)
      (((k / 256 % 256) :: (k % 256) :: nb).getD 1 0) = k := by
    simp [List.getD, from_be16]
    simp only [MAX_TRACEPOINT_NAME_LEN] at hk
    omega
  rw [hbe]
  rw [if_neg (by omega : ¬ MAX_TRACEPOINT_NAME_LEN < k)]
  have hdrop : ((k / 256 % 256) :: (k % 256) :: nb).drop 2 = nb := rfl
  rw [hdrop]
  rw [if_pos hnb]

/-- A record whose name bytes are invalid UTF-8 is looked up as the empty
string: with no empty-named tracepoint registered the registry is
unchanged, there is no teardown, and the record is consumed in full. -/
theorem setp_invalid_utf8_noop :
    ∀ (regs : List (List Nat × Bool)) (st : Bool) (name rest : List Nat),
      name.length ≤ MAX_TRACEPOINT_NAME_LEN →
      valid_utf8 name = false →
      assoc_lookup regs [] = none →
      set_tracepoints regs (enc_records [name]).length
          (enc_records [name] ++ rest) st =
        some (SetTpResult.ok regs (enc_records [name]).length) := by
  intro regs st name rest h32 hval hmiss
  have h := setp_records_exact regs st [name] rest (by
    intro n hn
    rw [List.mem_singleton] at hn
    subst hn
    exact h32)
  rw [h]
  have happ : apply_set regs [name] st = regs := by
    show assoc_set regs (utf8_or_empty name) st = regs
    unfold utf8_or_empty
    rw [if_neg (by simp [hval])]
    exact assoc_set_missing regs [] st hmiss
  rw [happ]

/-- C8 (amended): enable/disable body parsing repeatedly reads a u16 name
length and that many name bytes; a declared name length above 32 or any
short read tears the connection down; invalid UTF-8 name bytes are looked
up as the empty string (missing the registry when no empty-named
tracepoint exists, with no teardown); each looked-up tracepoint's flag is
set to the request's value; and the loop consumes AT LEAST the declared
body length L — exactly L when the records align with L (as the
counterexample shows, a misaligned body overshoots L rather than
consuming exactly L). -/
theorem c8_set_tracepoints_amended :
    (∀ (regs : List (List Nat × Bool)) (st : Bool) (names : List (List Nat))
        (rest : List Nat),
        (∀ n ∈ names, n.length ≤ MAX_TRACEPOINT_NAME_LEN) →
        set_tracepoints regs (enc_records names).length
            (enc_records names ++ rest) st =
          some (SetTpResult.ok (apply_set regs names st)
            (enc_records names).length)) ∧
    (∀ (regs : List (List Nat × Bool)) (st : Bool) (names : List (List Nat))
        (k : Nat) (rest : List Nat) (L : Nat),
        (∀ n ∈ names, n.length ≤ MAX_TRACEPOINT_NAME_LEN) →
        MAX_TRACEPOINT_NAME_LEN < k → k < 65536 →
        (enc_records names).length + 2 ≤ L →
        set_tracepoints regs L (enc_records names ++ (to_be16 k ++ rest))
            st = some SetTpResult.teardown) ∧
    (∀ (regs : List (List Nat × Bool)) (st : Bool) (names : List (List Nat))
        (L : Nat),
        (∀ n ∈ names, n.length ≤ MAX_TRACEPOINT_NAME_LEN) →
        (enc_records names).length < L →
        set_tracepoints regs L (enc_records names) st =
          some SetTpResult.teardown) ∧
    (∀ (regs : List (List Nat × Bool)) (st : Bool) (names : List (List Nat))
        (k : Nat) (nb : List Nat) (L : Nat),
        (∀ n ∈ names, n.length ≤ MAX_TRACEPOINT_NAME_LEN) →
        k ≤ MAX_TRACEPOINT_NAME_LEN → nb.length < k →
        (enc_records names).length < L →
        set_tracepoints regs L (enc_records names ++ (to_be16 k ++ nb)) st =
          some SetTpResult.teardown) ∧
    (∀ (regs : List (List Nat × Bool)) (st : Bool) (name rest : List Nat),
        name.length ≤ MAX_TRACEPOINT_NAME_LEN →
        valid_utf8 name = false →
        assoc_lookup regs [] = none →
        set_tracepoints regs (enc_records [name]).length
            (enc_records [name] ++ rest) st =
          some (SetTpResult.ok regs (enc_records [name]).length)) ∧
    (∀ (regs : List (List Nat × Bool)) (L : Nat) (stream : List Nat)
        (st : Bool) (r : List (List Nat × Bool)) (c : Nat),
        set_tracepoints regs L stream st = some (SetTpResult.ok r c) →
        L ≤ c) :=
  ⟨setp_records_exact, setp_bad_namelen, setp_short_header, setp_short_name,
   setp_invalid_utf8_noop,
   fun regs L stream st r c h => setp_consumed_ge L regs L 0 stream st r c h⟩

/-- C8 witness: an aligned single-record enable body for the registered
name "a" is parsed without teardown, consumes exactly its 3 declared
bytes and sets the flag. -/
theorem c8_witness :
    set_tracepoints [([97], false)] 3 [0, 1, 97] true =
      some (SetTpResult.ok [([97], true)] 3) :=
  c8_set_tracepoints_amended.1 [([97], false)] true [[97]] [] (by decide)

/-- Any window present in the flush loop whose length allows one more
guarded append stays below 4088 bytes, so every emitted frame (window
plus 12-byte header) is at most `QUEUE_TOTAL_SIZE` + 3 bytes. -/
theorem send_trace_loop_bound :
    ∀ (fuel : Nat) (buffer : List BufferElement) (que : List Nat)
      (lastc : Bool) (frames : List (List Nat)),
      que.length + 9 ≤ QUEUE_TOTAL_SIZE →
      send_trace_loop fuel buffer que lastc = some frames →
      ∀ f ∈ frames, f.length ≤ QUEUE_TOTAL_SIZE + 3 := by
  intro fuel
  induction fuel with
  | zero =>
    intro buffer que lastc frames _ h
    exact Option.noConfusion h
  | succ fuel ih =>
    intro buffer que lastc frames hq h f hf
    match buffer with
    | [] =>
      cases lastc with
      | true =>
        have : ([] : List (List Nat)) = frames := Option.some.inj h
        rw [← this] at hf
        exact absurd hf (List.not_mem_nil f)
      | false =>
        have : [push_front_header que Command.tracePush] = frames :=
          Option.some.inj h
        rw [← this] at hf
        rw [List.mem_singleton] at hf
        rw [hf, length_push_front_header]
        omega
    | front :: rest =>
      by_cases hfit : front.len + que.length + HEADER_LEN < QUEUE_TOTAL_SIZE
      · rw [send_trace_loop_cons_fits fuel front rest que lastc hfit] at h
        refine ih rest (encode_append_trace_data que front) false frames ?_
          h f hf
        rw [length_encode_append]
        simp only [HEADER_LEN] at hfit
        omega
      · have hstep : send_trace_loop (fuel + 1) (front :: rest) que lastc =
            (send_trace_loop fuel (front :: rest) [] true).map
              (fun fs => push_front_header que Command.tracePush :: fs) := by
          simp [send_trace_loop, hfit]
        rw [hstep] at h
        cases hrec : send_trace_loop fuel (front :: rest) [] true with
        | none => rw [hrec] at h; exact Option.noConfusion h
        | some fs =>
          rw [hrec] at h
          have : push_front_header que Command.tracePush :: fs = frames :=
            Option.some.inj h
          rw [← this] at hf
          rcases List.mem_cons.mp hf with hfr | hfr
          · rw [hfr, length_push_front_header]
            omega
          · exact ih (front :: rest) [] true fs
              (by simp [QUEUE_TOTAL_SIZE]) hrec f hfr

/-- When the loop returns with a non-empty buffer pending or an
uncommitted window, at least one frame is emitted. -/
theorem send_trace_loop_emits :
    ∀ (fuel : Nat) (buffer : List BufferElement) (que : List Nat)
      (lastc : Bool) (frames : List (List Nat)),
      send_trace_loop fuel buffer que lastc = some frames →
      (lastc = false ∨ buffer ≠ []) →
      frames ≠ [] := by
  intro fuel
  induction fuel with
  | zero =>
    intro buffer que lastc frames h _
    exact Option.noConfusion h
  | succ fuel ih =>
    intro buffer que lastc frames h hside
    match buffer with
    | [] =>
      cases lastc with
      | true =>
        rcases hside with hl | hb
        · exact Bool.noConfusion hl
        · exact absurd rfl hb
      | false =>
        have : [push_front_header que Command.tracePush] = frames :=
          Option.some.inj h
        rw [← this]
        simp
    | front :: rest =>
      by_cases hfit : front.len + que.length + HEADER_LEN < QUEUE_TOTAL_SIZE
      · rw [send_trace_loop_cons_fits fuel front rest que lastc hfit] at h
        exact ih rest (encode_append_trace_data que front) false frames h
          (Or.inl rfl)
      · have hstep : send_trace_loop (fuel + 1) (front :: rest) que lastc =
            (send_trace_loop fuel (front :: rest) [] true).map
              (fun fs => push_front_header que Command.tracePush :: fs) := by
          simp [send_trace_loop, hfit]
        rw [hstep] at h
        cases hrec : send_trace_loop fuel (front :: rest) [] true with
        | none => rw [hrec] at h; exact Option.noConfusion h
        | some fs =>
          rw [hrec] at h
          have : push_front_header que Command.tracePush :: fs = frames :=
            Option.some.inj h
          rw [← this]
          simp

/-- C4 (amended): the flush packs head-of-buffer events into send windows
and every emitted TracePush frame (12-byte header plus body) has total
size at most `QUEUE_TOTAL_SIZE` + 3 = 4099 bytes — not 4096, because the
window check counts each event's `len()` without its 4 bytes of u16
length fields (see the counterexample reaching 4099); a flush of an
empty buffer emits nothing, and a terminating flush of a non-empty
buffer emits at least one frame (the final one exactly when the current
window is non-empty). -/
theorem c4_flush_frames_amended :
    (∀ (fuel : Nat) (buffer : List BufferElement)
        (frames : List (List Nat)),
        send_trace_loop fuel buffer [] true = some frames →
        ∀ f ∈ frames, f.length ≤ QUEUE_TOTAL_SIZE + 3) ∧
    (∀ fuel : Nat, send_trace_loop (fuel + 1) [] [] true = some []) ∧
    (∀ (fuel : Nat) (buffer : List BufferElement)
        (frames : List (List Nat)),
        send_trace_loop fuel buffer [] true = some frames →
        buffer ≠ [] → frames ≠ []) := by
  refine ⟨?_, ?_, ?_⟩
  · intro fuel buffer frames h f hf
    exact send_trace_loop_bound fuel buffer [] true frames
      (by simp [QUEUE_TOTAL_SIZE]) h f hf
  · intro fuel
    simp [send_trace_loop]
  · intro fuel buffer frames h hb
    exact send_trace_loop_emits fuel buffer [] true frames h (Or.inr hb)

/-- C4 witness: flushing a concrete one-element buffer emits a single
frame, and the amended bound applies to it. -/
theorem c4_witness :
    send_trace_loop 3 [c4_w_e] [] true = some c4_w_frames ∧
    ∀ f ∈ c4_w_frames, f.length ≤ QUEUE_TOTAL_SIZE + 3 := by
  refine ⟨rfl, ?_⟩
  exact c4_flush_frames_amended.1 3 [c4_w_e] c4_w_frames rfl

end Libtracy
